import Mathlib

/-!
Verification development for the spex package resolution & import engine.

The TypeScript sources embedded here:
  - src/core/build/build-service.ts   (identifier parsing, ignore patterns, import copy)
  - src/core/git/package-cache.ts     (mirror cache)
  - src/core/catalog/build-service.ts (catalog identifier parsing, metadata harvest)
  - src/core/catalog/discover-service.ts (discovery decision logic)

Strings are modelled by Lean `String`; JavaScript string helpers (trim, split,
startsWith, replace) are given explicit executable definitions so that every
theorem can be evaluated on concrete inputs.  External effects (git processes,
the filesystem) are modelled by passing their outcomes as explicit arguments
or by explicit state records.
-/

set_option maxRecDepth 4000

namespace Spex

/-- JavaScript whitespace (`\s` and `.trim()`): space, tab, LF, VT, FF, CR and
the BOM / zero-width no-break space; other unicode space classes are outside
the modelled input range. -/
def jsWhitespace (c : Char) : Bool :=
  c == ' ' || c == '\t' || c == '\n' || c == '\r' || c.val == 11 || c.val == 12 ||
    c.val == 0xFEFF

/-- Models `value.trim()`. -/
def jsTrim (s : String) : String :=
  ⟨((s.data.dropWhile jsWhitespace).reverse.dropWhile jsWhitespace).reverse⟩

/-- Models `value.replace(/\/+$/, "")`: strip trailing slashes. -/
def stripTrailingSlashes (s : String) : String :=
  ⟨(s.data.reverse.dropWhile (· == '/')).reverse⟩

/-- Models `prefixStr + rest === s` at the start: JS `startsWith`. -/
def startsWithLit (p s : String) : Bool :=
  p.data.isPrefixOf s.data

/-- Models an ASCII-only `toLowerCase` (sufficient for the ASCII literals and
hostnames handled by the parser). -/
def toLowerAscii (s : String) : String :=
  ⟨s.data.map Char.toLower⟩

/-- Models `value.split(sep)` for a one-character separator: empty pieces are
kept, `"".split(sep)` is `[""]`. -/
def splitOnCharAux (sep : Char) : List Char → List Char → List String
  | [], acc => [⟨acc.reverse⟩]
  | c :: rest, acc =>
      if c == sep then ⟨acc.reverse⟩ :: splitOnCharAux sep rest []
      else splitOnCharAux sep rest (c :: acc)

def splitOnChar (sep : Char) (s : String) : List String :=
  splitOnCharAux sep s.data []

/-- Split a list at the first occurrence of `sep` as a sublist: the part
before and the part after, or `none` when `sep` does not occur. -/
def splitAtSub (sep : List Char) : List Char → Option (List Char × List Char)
  | [] => if sep.isEmpty then some ([], []) else none
  | c :: rest =>
      if sep.isPrefixOf (c :: rest) then some ([], (c :: rest).drop sep.length)
      else (splitAtSub sep rest).map (fun p => (c :: p.1, p.2))

/-- Models `value.includes("://")`. -/
def containsSchemeSep (s : String) : Bool :=
  (splitAtSub "://".data s.data).isSome

/-- Models `/^https?:\/\//i.test(value)`. -/
def matchesHttpScheme (s : String) : Bool :=
  startsWithLit "http://" (toLowerAscii s) || startsWithLit "https://" (toLowerAscii s)

/-- The parts of a parsed URL that the identifier parsers read. -/
structure UrlParts where
  hostname : String
  pathname : String
deriving DecidableEq, Repr

/-- The decimal value of a digit run. -/
def digitsValue (ds : List Char) : Nat :=
  ds.foldl (fun acc c => acc * 10 + (c.toNat - '0'.toNat)) 0

/-- A WHATWG single-dot path segment: `.` or a percent-encoded dot,
case-insensitively. -/
def isSingleDotSegment (seg : String) : Bool :=
  let t := toLowerAscii seg
  t == "." || t == "%2e"

/-- A WHATWG double-dot path segment: `..` with either dot possibly
percent-encoded, case-insensitively. -/
def isDoubleDotSegment (seg : String) : Bool :=
  let t := toLowerAscii seg
  t == ".." || t == ".%2e" || t == "%2e." || t == "%2e%2e"

/-- The WHATWG path-state dot-segment normalization over the raw
slash-separated segments (the accumulator holds the output segments in
reverse): a double dot pops the last output segment, a single dot is
dropped, and when the final raw segment is a dot segment an empty segment is
appended (the URL keeps its trailing slash). -/
def dotSegGo (acc : List String) : List String → List String
  | [] => acc.reverse
  | [seg] =>
      if isDoubleDotSegment seg then ("" :: acc.tail).reverse
      else if isSingleDotSegment seg then ("" :: acc).reverse
      else (seg :: acc).reverse
  | seg :: rest =>
      if isDoubleDotSegment seg then dotSegGo acc.tail rest
      else if isSingleDotSegment seg then dotSegGo acc rest
      else dotSegGo (seg :: acc) rest

def joinSegs : List String → String
  | [] => ""
  | [seg] => seg
  | seg :: rest => seg ++ "/" ++ joinSegs rest

/-- The host of a WHATWG authority: the part after the last `@` (userinfo is
dropped), with a trailing `:port` removed when the port is all digits and at
most 65535 (an empty port is ignored); a non-numeric or out-of-range port,
or an empty host, is an invalid URL.  Bracketed IPv6 hosts and characters
requiring percent-encoding are outside the modelled input range. -/
def parseAuthority (authority : List Char) : Option String :=
  let hostPort := (authority.reverse.takeWhile (fun x => x != '@')).reverse
  if hostPort.contains ':' then
    let port := (hostPort.reverse.takeWhile (fun x => x != ':')).reverse
    let host := hostPort.take (hostPort.length - port.length - 1)
    if port.all Char.isDigit then
      if !port.isEmpty && 65535 < digitsValue port then none
      else if host.isEmpty then none
      else some ⟨host⟩
    else none
  else if hostPort.isEmpty then none
  else some ⟨hostPort⟩

/-- Models `new URL(value)` for absolute URLs `scheme://authority/path...`
with no query, fragment or characters requiring percent-encoding: the
hostname is the authority's host lowercased (userinfo and a valid port are
stripped); the pathname is the remainder from the first slash or backslash
(backslashes act as segment delimiters for the special schemes in scope),
dot-segment-normalized as the WHATWG path state does, or a single slash when
absent.  A value without that shape (no scheme separator, empty scheme,
empty host, invalid port) is an invalid URL, `none`. -/
def parseUrlSimple (value : String) : Option UrlParts :=
  match splitAtSub "://".data value.data with
  | none => none
  | some (scheme, rest) =>
      if scheme.isEmpty then none
      else
        let authority := rest.takeWhile (fun c => c != '/' && c != '\\')
        let path := rest.drop authority.length
        match parseAuthority authority with
        | none => none
        | some host =>
            let pathname :=
              if path.isEmpty then "/"
              else
                let mapped := path.map (fun c => if c == '\\' then '/' else c)
                "/" ++ joinSegs (dotSegGo [] (splitOnChar '/' ⟨mapped.drop 1⟩))
            some { hostname := toLowerAscii host, pathname := pathname }

/-- The character class `[A-Za-z0-9._-]` of `assertSafePathSegment`. -/
def safeChar (c : Char) : Bool :=
  c.isAlphanum || c == '.' || c == '_' || c == '-'

/-- Models the test `/^[A-Za-z0-9._-]+$/.test(value)`: nonempty and every
character in the safe class. -/
def safeSegment (value : String) : Bool :=
  value != "" && value.data.all safeChar

/-- Models `name.replace(/\.git$/i, "")`. -/
def stripGitSuffix (name : String) : String :=
  if ".git".data.isSuffixOf (toLowerAscii name).data then
    ⟨name.data.take (name.data.length - 4)⟩
  else name

def defaultPackageHost : String := "github.com"

/-- `interface ParsedPackageId` of src/core/build/build-service.ts. -/
structure ParsedPackageId where
  raw : String
  host : String
  «namespace» : String
  name : String
  cloneUrl : String
deriving DecidableEq, Repr

/-- The final block of `parsePackageId`: strip a trailing `.git` from the name,
run `assertSafePathSegment` on host, namespace and name, and build the
normalized record with its https clone URL. -/
def validateAndBuildPackageId (rawPackageId host namespaceSegment nameSegment : String) :
    Except String ParsedPackageId :=
  let name := stripGitSuffix nameSegment
  if !safeSegment host then
    .error "Invalid package host in package identifier"
  else if !safeSegment namespaceSegment then
    .error "Invalid package namespace in package identifier"
  else if !safeSegment name then
    .error "Invalid package name in package identifier"
  else
    .ok { raw := rawPackageId, host, «namespace» := namespaceSegment, name,
          cloneUrl := "https://" ++ host ++ "/" ++ namespaceSegment ++ "/" ++ name ++ ".git" }

/-- Models `parsePackageId` of src/core/build/build-service.ts (lines 546-615):
trim and strip trailing slashes; a `http(s)://` value goes through the URL
parser and must have exactly two path segments; otherwise two segments mean
`namespace/name` on the default host and three segments mean
`host/namespace/name` with a literal dot required in the host; any other
segment count is a format error; finally the name loses a trailing `.git` and
host, namespace and name must pass the safe-character test. -/
def parsePackageId (rawPackageId : String) : Except String ParsedPackageId :=
  let value := stripTrailingSlashes (jsTrim rawPackageId)
  if value == "" then .error "Package identifier must not be empty."
  else
    let hostNsName : Except String (String × String × String) :=
      if matchesHttpScheme value then
        match parseUrlSimple value with
        | none => .error "Invalid URL"
        | some url =>
            match (splitOnChar '/' url.pathname).filter (fun seg => seg != "") with
            | [namespaceSegment, nameSegment] =>
                .ok (url.hostname, namespaceSegment, nameSegment)
            | _ => .error "Package URL must contain namespace and name"
      else
        match (splitOnChar '/' value).filter (fun seg => seg != "") with
        | [namespaceSegment, nameSegment] =>
            .ok (defaultPackageHost, namespaceSegment, nameSegment)
        | [hostSegment, namespaceSegment, nameSegment] =>
            if hostSegment.data.contains '.' then
              .ok (hostSegment, namespaceSegment, nameSegment)
            else .error "Unsupported package identifier format"
        | _ => .error "Unsupported package identifier format"
    match hostNsName with
    | .error e => .error e
    | .ok (host, namespaceSegment, nameSegment) =>
        validateAndBuildPackageId rawPackageId host namespaceSegment nameSegment

example :
    parsePackageId "myorg/adr-node" =
      .ok { raw := "myorg/adr-node", host := "github.com", «namespace» := "myorg",
            name := "adr-node", cloneUrl := "https://github.com/myorg/adr-node.git" } := by
  rfl

example :
    parsePackageId "https://github.com/myorg/adr-node.git" =
      .ok { raw := "https://github.com/myorg/adr-node.git", host := "github.com",
            «namespace» := "myorg", name := "adr-node",
            cloneUrl := "https://github.com/myorg/adr-node.git" } := by
  rfl

example : (parsePackageId "../../etc/passwd").isOk = false := by rfl
example : (parsePackageId "a/b;rm -rf").isOk = false := by rfl
example : (parsePackageId "git://github.com/a/b").isOk = false := by rfl
example : (parsePackageId "https://github.com/a/b%20c").isOk = false := by rfl

example :
    parseUrlSimple "https://github.com/a/.." =
      some { hostname := "github.com", pathname := "/" } := by rfl
example :
    parseUrlSimple "https://github.com/a/b/.." =
      some { hostname := "github.com", pathname := "/a/" } := by rfl
example :
    parseUrlSimple "https://github.com/a/./b" =
      some { hostname := "github.com", pathname := "/a/b" } := by rfl
example :
    parseUrlSimple "https://user@github.com:8080/a/b" =
      some { hostname := "github.com", pathname := "/a/b" } := by rfl
example : (parsePackageId "https://github.com/a/..").isOk = false := by rfl

/-!
## Ignore patterns: the minimatch model

`copyPackageSpexDirectory` compiles each ignore glob with
`new Minimatch(normalizeGlobPath(pattern), { dot: true })` and asks
`matcher.match(path)` as well as `matcher.match(path, true)` (partial match)
for directories.  The model below reproduces minimatch's `matchOne` algorithm
for the pattern subset without braces, extglobs, character classes, escapes,
negation and comments: a pattern is split on slash runs into parts, a part is
the globstar `**` or a segment glob over `*`, `?` and literal characters.
`dot: true` is baked in (no leading-dot restriction; only `.` and `..`
components stop a globstar).
-/

/-- One slash-separated part of a compiled minimatch pattern. -/
inductive GlobPart where
  | globstar : GlobPart
  | seg (pat : List Char) : GlobPart
deriving DecidableEq, Repr

/-- The lazy `*` of a segment glob (`[^/]*?` anchored in a part's regex):
existence of a suffix of the segment matched by the rest of the part.  The
rest-matcher is passed as a function so that the recursion is structural on
the segment. -/
def starLoop (m : List Char → Bool) : List Char → Bool
  | [] => m []
  | c :: cs => m (c :: cs) || starLoop m cs

/-- Matching one path segment against a segment glob over `*`, `?` and
literal characters (minimatch compiles such a part to an anchored regex with
`*` as any run of non-slash characters and `?` as one non-slash character;
a path segment holds no slash). -/
def segMatch : List Char → List Char → Bool
  | [], [] => true
  | [], _ :: _ => false
  | '*' :: ps, cs => starLoop (segMatch ps) cs
  | '?' :: _, [] => false
  | '?' :: ps, _ :: cs => segMatch ps cs
  | _ :: _, [] => false
  | p :: ps, c :: cs => p == c && segMatch ps cs

/-- The globstar swallow loop of minimatch's `matchOne`: try the remaining
pattern (the rest-matcher `m`) at each suffix of the path, stopping at a `.`
or `..` component (`dot: true` keeps other dotted components eligible); when
the path is exhausted without a match, a partial match succeeds. -/
def swallowGo (pflag : Bool) (m : List String → Bool) : List String → Bool
  | [] => pflag
  | f :: fs => m (f :: fs) || (!(f == "." || f == "..") && swallowGo pflag m fs)

/-- minimatch's `matchOne(file, pattern, partial)` with `dot: true` (pattern
argument first so the recursion is structural on it): a trailing globstar
swallows the rest of the path except `.`/`..` components; a non-trailing
globstar tries every suffix of the path; running out of path with pattern
left returns the partial flag; running out of pattern is a match only at an
empty trailing segment. -/
def matchOne : List GlobPart → List String → Bool → Bool
  | [], [], _ => true
  | [], f :: fs, _ => f == "" && fs.isEmpty
  | _ :: _, [], pflag => pflag
  | .seg g :: ps, f :: fs, pflag => segMatch g f.data && matchOne ps fs pflag
  | .globstar :: ps, f :: fs, pflag =>
      if ps.isEmpty then (f :: fs).all (fun seg => seg != "." && seg != "..")
      else swallowGo pflag (fun file => matchOne ps file pflag) (f :: fs)

/-- Models `path.replaceAll("\\", "/").replace(/^\/+/, "").replace(/\/+$/, "")`
(`normalizeGlobPath`). -/
def normalizeGlobPath (path : String) : String :=
  stripTrailingSlashes ⟨(path.data.map (fun c => if c == '\\' then '/' else c)).dropWhile (· == '/')⟩

/-- Split on runs of slashes (state machine over the characters; the flag
records being inside a slash run): pieces between maximal slash runs, keeping
an empty leading or trailing piece. -/
def slashSplitGo : Bool → List Char → List Char → List String
  | _, [], acc => [⟨acc.reverse⟩]
  | run, c :: rest, acc =>
      if c == '/' then
        if run then slashSplitGo true rest []
        else ⟨acc.reverse⟩ :: slashSplitGo true rest []
      else slashSplitGo false rest (c :: acc)

/-- Models minimatch's `slashSplit` (split on the regex `/\/+/`). -/
def slashSplitRuns (s : String) : List String :=
  slashSplitGo false s.data []

/-- Compile one normalized glob string into pattern parts: `**` is the
globstar, anything else a segment glob. -/
def parseGlobPart (s : String) : GlobPart :=
  if s == "**" then .globstar else .seg s.data

/-- A compiled ignore pattern (the `Minimatch` object of
`CompiledIgnorePattern`), in the modelled subset. -/
def compileGlob (pattern : String) : List GlobPart :=
  (slashSplitRuns pattern).map parseGlobPart

/-- `matcher.match(path, partialFlag)` for one compiled pattern. -/
def minimatchMatch (pat : List GlobPart) (path : String) (pflag : Bool) : Bool :=
  matchOne pat (slashSplitRuns path) pflag

/-- Models `compileIgnorePatterns`: trim each pattern, drop empties, compile
the normalized glob with `dot: true`. -/
def compileIgnorePatterns (patterns : List String) : List (List GlobPart) :=
  ((patterns.map jsTrim).filter (fun p => p != "")).map
    (fun p => compileGlob (normalizeGlobPath p))

/-- Models `matchesAnyIgnorePattern`: a nonempty normalized relative path that
some compiled pattern fully matches. -/
def matchesAnyIgnorePattern (relativePath : String) (pats : List (List GlobPart)) : Bool :=
  let normalizedRelativePath := normalizeGlobPath relativePath
  if normalizedRelativePath == "" then false
  else pats.any (fun pat => minimatchMatch pat normalizedRelativePath false)

/-- Models `matchesAnyIgnoreDirectoryPattern`: a full match or a partial
match of some compiled pattern. -/
def matchesAnyIgnoreDirectoryPattern (relativePath : String) (pats : List (List GlobPart)) : Bool :=
  let normalizedRelativePath := normalizeGlobPath relativePath
  if normalizedRelativePath == "" then false
  else pats.any (fun pat =>
    minimatchMatch pat normalizedRelativePath false ||
      minimatchMatch pat normalizedRelativePath true)

/-!
## The filtered copy
-/

/-- A filesystem subtree: the checkout's `spex` directory content. -/
inductive FsEntry where
  | file (name : String) : FsEntry
  | dir (name : String) (children : List FsEntry) : FsEntry
deriving Repr

/-- `resolve`-style relative path join (the root's own relative path is the
empty string). -/
def joinRel (pre name : String) : String :=
  if pre == "" then name else pre ++ "/" ++ name

/-- Models the `cp` walk of `copyPackageSpexDirectory` below the root: a file
is copied unless `matchesAnyIgnorePattern` holds of its relative path; a
directory and its whole subtree are skipped when
`matchesAnyIgnoreDirectoryPattern` holds of its relative path, without
visiting the descendants. -/
def copyEntries (pats : List (List GlobPart)) (pre : String) : List FsEntry → List FsEntry
  | [] => []
  | .file n :: rest =>
      (if matchesAnyIgnorePattern (joinRel pre n) pats then [] else [.file n]) ++
        copyEntries pats pre rest
  | .dir n cs :: rest =>
      (if matchesAnyIgnoreDirectoryPattern (joinRel pre n) pats then []
       else [.dir n (copyEntries pats (joinRel pre n) cs)]) ++
        copyEntries pats pre rest

/-- Models `copyPackageSpexDirectory sourcePath targetPath exportIgnorePatterns`
on the children of the specification root (the root itself has an empty
relative path and is always copied). -/
def copyPackageSpexDirectory (exportIgnorePatterns : List String)
    (sourceChildren : List FsEntry) : List FsEntry :=
  copyEntries (compileIgnorePatterns exportIgnorePatterns) "" sourceChildren

/-- The relative paths of all files in a subtree. -/
def filesOfEntries (pre : String) : List FsEntry → List String
  | [] => []
  | .file n :: rest => joinRel pre n :: filesOfEntries pre rest
  | .dir n cs :: rest => filesOfEntries (joinRel pre n) cs ++ filesOfEntries pre rest

example :
    copyPackageSpexDirectory ["build/**"]
      [.dir "build" [.file "out.md"], .dir "adr" [.file "x.md"], .file "top.pyc"] =
      [.dir "adr" [.file "x.md"], .file "top.pyc"] := by
  simp +decide [copyPackageSpexDirectory, copyEntries]

example :
    copyPackageSpexDirectory ["**/*.pyc"] [.dir "adr" [.file "x.md"]] = [] := by
  simp +decide [copyPackageSpexDirectory, copyEntries]

example :
    matchesAnyIgnorePattern "adr/x.md" (compileIgnorePatterns ["**/*.pyc"]) = false := by rfl

example :
    copyPackageSpexDirectory ["**/*.pyc"] [.file "a.pyc", .file "b.md"] = [.file "b.md"] := by
  simp +decide [copyPackageSpexDirectory, copyEntries]

/-!
## The import step (`clonePackageToPath`)

The checkout into the temporary directory is modelled by its outcome: either
the git clone failed, or it produced a tree whose top level may or may not
hold a `spex` directory, together with the export ignore patterns read from
the checkout's own `.spex/spex.yml` (the empty list when that file is
absent).  The pre-existing content at `targetPath` is threaded explicitly so
that the order of operations (the `rm` of the target happens after the
`spex`-existence check) is visible in the result.
-/

/-- The outcome of a successful `git clone` into the temporary directory, as
far as `clonePackageToPath` reads it. -/
structure CheckoutTree where
  /-- The children of the checkout's top-level `spex` directory, or `none`
  when the checkout has no `spex` directory. -/
  spexChildren : Option (List FsEntry)
  /-- `export.ignores` of the checkout's `.spex/spex.yml` (empty when the
  file is missing). -/
  exportIgnores : List String

/-- Models `clonePackageToPath(cloneUrl, targetPath, cwd, sourceLabel)` of
src/core/build/build-service.ts (lines 617-651): when the clone fails, or
when the checkout has no top-level `spex` directory, the function throws (the
missing-`spex` error is re-wrapped by the catch block into the
`Failed to import package` message) and the target content is untouched; only
once the `spex` directory has been found is the target removed and replaced
by the filtered copy.  The result pairs the thrown-or-returned outcome with
the final content at `targetPath`. -/
def clonePackageToPath (cloneOutcome : Except String CheckoutTree)
    (targetContent : Option (List FsEntry)) :
    Except String Unit × Option (List FsEntry) :=
  match cloneOutcome with
  | .error _ => (.error "Failed to import package", targetContent)
  | .ok checkout =>
      match checkout.spexChildren with
      | none => (.error "Failed to import package", targetContent)
      | some children =>
          (.ok (), some (copyPackageSpexDirectory checkout.exportIgnores children))

/-!
## The mirror cache (`src/core/git/package-cache.ts`)

The cache directory tree and the external git invocations are modelled by an
explicit state: the set of existing mirror paths and counters of the git
commands run so far.  The remote is unchanged and reachable, so every git
command succeeds (the claim under verification quantifies over exactly that
situation).
-/

/-- `interface CachedPackageRepository` of src/core/git/package-cache.ts. -/
structure CachedPackageRepository where
  host : String
  «namespace» : String
  name : String
  cloneUrl : String

/-- The modelled filesystem-and-process state of the cache. -/
structure CacheState where
  /-- Paths at which a mirror directory exists. -/
  mirrors : List String
  cloneCount : Nat
  fetchCount : Nat
  setUrlCount : Nat
deriving DecidableEq, Repr

/-- Models `getCachedPackageRepositoryMirrorPath` with the per-user cache
root (`homedir()/.cache/spex/packages`) passed explicitly:
`cacheRoot/host/namespace/name.git`. -/
def getCachedPackageRepositoryMirrorPath (cacheRoot : String)
    (repository : CachedPackageRepository) : String :=
  cacheRoot ++ "/" ++ repository.host ++ "/" ++ repository.«namespace» ++ "/" ++
    repository.name ++ ".git"

/-- Models `ensureCachedPackageRepositoryMirror` (lines 894-920): when the
mirror path does not exist, run one `git clone --mirror` and return the path;
when it exists, run `git remote set-url` and one `git fetch --prune` and
return the same path. -/
def ensureCachedPackageRepositoryMirror (cacheRoot : String)
    (repository : CachedPackageRepository) (s : CacheState) : String × CacheState :=
  let cacheRepositoryPath := getCachedPackageRepositoryMirrorPath cacheRoot repository
  if s.mirrors.contains cacheRepositoryPath then
    (cacheRepositoryPath,
      { s with setUrlCount := s.setUrlCount + 1, fetchCount := s.fetchCount + 1 })
  else
    (cacheRepositoryPath,
      { s with cloneCount := s.cloneCount + 1,
               mirrors := cacheRepositoryPath :: s.mirrors })

/-!
## YAML values and the build-file readers
-/

/-- A parsed YAML value as the services see it after `parseYaml`. -/
inductive YamlValue where
  | str (s : String) : YamlValue
  | num (n : Int) : YamlValue
  | bool (b : Bool) : YamlValue
  | null : YamlValue
  | list (items : List YamlValue) : YamlValue
  | obj (fields : List (String × YamlValue)) : YamlValue

/-- Models `asRecord`: only a non-null, non-array object yields its fields. -/
def asRecord : YamlValue → Option (List (String × YamlValue))
  | .obj fields => some fields
  | _ => none

/-- JS property lookup `root["key"]` on a record: `none` models `undefined`. -/
def lookupField : List (String × YamlValue) → String → Option YamlValue
  | [], _ => none
  | (k, v) :: rest, key => if k == key then some v else lookupField rest key

/-- Models `parseStringList(value)`: a non-array (including a missing
`undefined` value) gives `[]`; otherwise keep the string items, trim them and
drop the empties. -/
def parseStringList (value : Option YamlValue) : List String :=
  match value with
  | some (.list items) =>
      ((items.filterMap (fun item => match item with
          | .str s => some s
          | _ => none)).map jsTrim).filter (fun s => s != "")
  | _ => []

/-- Models `parseBuildFileYaml`: `asRecord(parsed) ?? {}`. -/
def parseBuildFileYaml (parsed : YamlValue) : List (String × YamlValue) :=
  (asRecord parsed).getD []

/-- Models `parseBuildFilePackages` of src/core/build/build-service.ts
(lines 451-454). -/
def parseBuildFilePackages (parsed : YamlValue) : List String :=
  parseStringList (lookupField (parseBuildFileYaml parsed) "packages")

/-- Models `parseBuildFileExportIgnores` (lines 456-460). -/
def parseBuildFileExportIgnores (parsed : YamlValue) : List String :=
  parseStringList ((asRecord ((lookupField (parseBuildFileYaml parsed) "export").getD .null)).bind
    (fun exportSection => lookupField exportSection "ignores"))

/-- `interface ImportedSpexPackage`. -/
structure ImportedSpexPackage where
  packageId : String
  sourceUrl : String
  targetPath : String
deriving DecidableEq, Repr

/-- The package-import loop of `BuildService.run` (lines 703-725): the
declared identifiers are processed strictly in order, each through the
parse-resolve-import step (modelled by `importOne`, which may throw); the
first failure aborts the run, otherwise the imported packages are collected
in order. -/
def buildServiceImportLoop (importOne : String → Except String ImportedSpexPackage) :
    List String → Except String (List ImportedSpexPackage)
  | [] => .ok []
  | rawPackageId :: rest =>
      match importOne rawPackageId with
      | .error e => .error e
      | .ok importedPackage =>
          match buildServiceImportLoop importOne rest with
          | .error e => .error e
          | .ok imported => .ok (importedPackage :: imported)

/-- `true` exactly when the value is a YAML list (`Array.isArray`). -/
def isYamlList : Option YamlValue → Bool
  | some (.list _) => true
  | _ => false

/-!
## The discovery session (`src/core/catalog/discover-service.ts`)
-/

/-- Models `uniqueStrings` (lines 67-81): keep the first occurrence of each
value, tracked in a seen-set. -/
def uniqueStringsGo (seen : List String) : List String → List String
  | [] => []
  | v :: vs =>
      if seen.contains v then uniqueStringsGo seen vs
      else v :: uniqueStringsGo (v :: seen) vs

def uniqueStrings (values : List String) : List String :=
  uniqueStringsGo [] values

/-- Models the discover service's `parseBuildFilePackages` (lines 88-91):
the string list of the `packages` key, deduplicated. -/
def discoverParseBuildFilePackages (parsed : YamlValue) : List String :=
  uniqueStrings (parseStringList (lookupField (parseBuildFileYaml parsed) "packages"))

/-- `interface CatalogDiscoverPackageEntry`. -/
structure CatalogDiscoverPackageEntry where
  id : String
  name : String
deriving DecidableEq, Repr

/-- The decision step of `CatalogDiscoverService.run` (lines 175-179): the
available entries are the catalog entries whose id is not in the build file's
package list (`importedPackageSet.has`), in catalog order. -/
def availablePackageEntries (catalogPackageEntries : List CatalogDiscoverPackageEntry)
    (importedPackages : List String) : List CatalogDiscoverPackageEntry :=
  catalogPackageEntries.filter (fun catalogPackage =>
    !(importedPackages.contains catalogPackage.id))

/-- The persisted build-file state the discovery session mutates: its package
list and how many times the file has been written. -/
structure DiscoverBuildFileState where
  packages : List String
  writes : Nat
deriving DecidableEq, Repr

/-- Models `CatalogDiscoverService.addPackage` (lines 193-211) on the build
file state: an empty trimmed id is an error; an id already present changes
nothing (no write); otherwise the id is appended and the file written once.
The refreshed discovery state the method returns is computed from the
resulting package list by `availablePackageEntries`. -/
def addPackage (packageId : String) (s : DiscoverBuildFileState) :
    Except String DiscoverBuildFileState :=
  let pid := jsTrim packageId
  if pid == "" then .error "Package ID must not be empty."
  else if s.packages.contains pid then .ok s
  else .ok { packages := s.packages ++ [pid], writes := s.writes + 1 }

/-!
## The catalog metadata harvester (`src/core/catalog/build-service.ts`)
-/

/-- `interface ParsedCatalogPackageIdentifier`. -/
structure ParsedCatalogPackageIdentifier where
  host : String
  «namespace» : String
  name : String
  cloneUrl : String
deriving DecidableEq, Repr

/-- Models `parseCatalogPackageIdentifier` (lines 91-170): like the build
parser but the URL branch triggers on any `://` occurrence, the URL path only
needs its first two segments to be nonempty (extra segments are ignored), and
the trailing-slash strip is absent. -/
def parseCatalogPackageIdentifier (rawPackageId : String) :
    Except String ParsedCatalogPackageIdentifier :=
  let value := jsTrim rawPackageId
  if value == "" then .error "Catalog packages list must not contain empty values."
  else
    let hostNsName : Except String (String × String × String) :=
      if containsSchemeSep value then
        match parseUrlSimple value with
        | none => .error "Unsupported package URL format"
        | some url =>
            match (splitOnChar '/' url.pathname).filter (fun seg => seg != "") with
            | namespaceSegment :: nameSegment :: _ =>
                .ok (url.hostname, namespaceSegment, nameSegment)
            | _ => .error "Package URL must contain namespace and name"
      else
        match (splitOnChar '/' value).filter (fun seg => seg != "") with
        | [namespaceSegment, nameSegment] =>
            .ok (defaultPackageHost, namespaceSegment, nameSegment)
        | [hostSegment, namespaceSegment, nameSegment] =>
            if hostSegment.data.contains '.' then
              .ok (hostSegment, namespaceSegment, nameSegment)
            else .error "Unsupported package identifier format"
        | _ => .error "Unsupported package identifier format"
    match hostNsName with
    | .error e => .error e
    | .ok (host, namespaceSegment, nameSegment) =>
        let name := stripGitSuffix nameSegment
        if !safeSegment host then .error "Unsupported package host format"
        else if !safeSegment namespaceSegment then
          .error "Unsupported package namespace format"
        else if !safeSegment name then .error "Unsupported package name format"
        else
          .ok { host, «namespace» := namespaceSegment, name,
                cloneUrl := "https://" ++ host ++ "/" ++ namespaceSegment ++ "/" ++
                  name ++ ".git" }

/-- The IEEE-754 double nearest to an integer: exact below `2^53`, otherwise
rounded to 53 significant bits with round-half-to-even, and `none` (an
infinity) when the rounded magnitude reaches `2^1024`. -/
def jsDoubleOfInt (n : Int) : Option Int :=
  let m := n.natAbs
  if m < 2 ^ 53 then some n
  else
    let k := Nat.log2 m + 1 - 53
    let q := m / 2 ^ k
    let r := m % 2 ^ k
    let half := 2 ^ (k - 1)
    let q₂ := if half < r || (r == half && q % 2 == 1) then q + 1 else q
    let v := q₂ * 2 ^ k
    if 2 ^ 1024 ≤ v then none
    else some (Int.sign n * (v : Int))

/-- Models `Number.parseInt(s, 10)`: skip leading whitespace, an optional
sign, then the longest leading digit run, the result being that integer as a
double.  No digit gives NaN; NaN and the infinities are represented together
as `none`, since the call site only gates on `Number.isFinite`. -/
def parseIntJs (s : String) : Option Int :=
  let cs := s.data.dropWhile jsWhitespace
  let signAndRest : Int × List Char :=
    match cs with
    | '-' :: r => (-1, r)
    | '+' :: r => (1, r)
    | r => (1, r)
  let digits := signAndRest.2.takeWhile Char.isDigit
  if digits.isEmpty then none
  else jsDoubleOfInt (signAndRest.1 * (digitsValue digits : Int))

/-- The `(?:\s+#*)?` tail of the title regex applied to the captured body:
a trailing run of hashes preceded by whitespace is removed together with
that whitespace; a run not preceded by whitespace (or a body of hashes
only) stays. -/
def stripClosingHashes (body : List Char) : List Char :=
  let r := body.reverse
  let r1 := r.dropWhile (· == '#')
  if r1.length < r.length &&
      (match r1 with
       | c₀ :: _ => jsWhitespace c₀
       | [] => false) then
    (r1.dropWhile jsWhitespace).reverse
  else body

/-- The anchor search of the title regex `^\s*#\s+...` in multiline mode:
the first `#` that is the first non-whitespace character of its line (`^`
matches after `\n` or `\r`, and the greedy `\s*` only crosses whitespace)
and is followed by at least one whitespace character (`\s+`); a line-leading
`#` followed by a non-whitespace character fails that anchor and the scan
continues.  Returns the characters after the matched `#`. -/
def findHeadingRest : List Char → Bool → Option (List Char)
  | [], _ => none
  | c :: rest, leadOk =>
      if c == '#' && leadOk then
        match rest with
        | [] => none
        | c₂ :: _ =>
            if jsWhitespace c₂ then some rest
            else findHeadingRest rest false
      else if c == '\n' || c == '\r' then findHeadingRest rest true
      else if jsWhitespace c then findHeadingRest rest leadOk
      else findHeadingRest rest false

/-- Models `extractReadmeTitle` (lines 172-176): strip a leading byte-order
mark, then take the first match of `/^\s*#\s+(.+?)(?:\s+#*)?\s*$/m`.  With
the greedy `\s+` after the `#` crossing line boundaries, the captured group
starts at the first non-whitespace character after the matched `#` (so
content like a hash alone on a line followed by a title line does match) and,
since `.` matches no line terminator while `$` matches before one, extends
over that character's line, right-trimmed, with the optional trailing
whitespace-plus-hashes run removed; whitespace-only remainders capture a
whitespace group whose trim the final `|| null` maps to no title.  Line
terminators other than `\n` and `\r` are outside the modelled input
range. -/
def extractReadmeTitle (readmeContent : String) : Option String :=
  let normalized : List Char :=
    match readmeContent.data with
    | c :: rest => if c.val == 0xFEFF then rest else c :: rest
    | [] => []
  match findHeadingRest normalized true with
  | none => none
  | some rest =>
      let afterWs := rest.dropWhile jsWhitespace
      match afterWs with
      | [] => none
      | _ =>
          let lineChars := afterWs.takeWhile (fun c => c != '\n' && c != '\r')
          let body := (lineChars.reverse.dropWhile jsWhitespace).reverse
          let stripped := stripClosingHashes body
          if stripped.isEmpty then none else some ⟨stripped⟩

/-- Models `tryReadRepositoryName` (lines 178-198) over the outcomes of the
four `git show HEAD:README-candidate` reads: a failed read (`none`) is
swallowed; the first successful read with a truthy extracted title wins;
otherwise no name is found. -/
def tryReadRepositoryName : List (Option String) → Option String
  | [] => none
  | none :: rest => tryReadRepositoryName rest
  | some content :: rest =>
      match extractReadmeTitle content with
      | some title => some title
      | none => tryReadRepositoryName rest

/-- `interface CatalogPackageMetadata`. -/
structure CatalogPackageMetadata where
  name : String
  updated : Int
deriving DecidableEq, Repr

/-- Models `readRepositoryMetadata` (lines 205-235) given the stdout of
`git log --all -1 --format=%ct` on the refreshed mirror and the outcomes of
the README reads (the mirror refresh itself is assumed to succeed): a parsed
commit time that is NaN or non-positive is a hard
`SpexCatalogBuildError`; the display name falls back to the raw package id
when no README title is found, never an error. -/
def readRepositoryMetadata (packageId : String) (logStdout : String)
    (readmeReads : List (Option String)) : Except String CatalogPackageMetadata :=
  match parseCatalogPackageIdentifier packageId with
  | .error e => .error e
  | .ok _ =>
      match parseIntJs (jsTrim logStdout) with
      | none => .error "Failed to read last update time"
      | some updated =>
          if updated ≤ 0 then .error "Failed to read last update time"
          else
            .ok { name := (tryReadRepositoryName readmeReads).getD packageId, updated }

example : parseIntJs "1700000000" = some 1700000000 := by rfl
example : parseIntJs "abc" = none := by rfl
example : parseIntJs "" = none := by rfl
example : extractReadmeTitle "# My Title\nbody" = some "My Title" := by rfl
example : extractReadmeTitle "## Not level one\nbody" = none := by rfl
example : extractReadmeTitle "plain\ntext" = none := by rfl
example : extractReadmeTitle "#\nTitle" = some "Title" := by rfl
example : extractReadmeTitle "# Title ###" = some "Title" := by rfl
example : extractReadmeTitle "#  \n\n# Real" = some "# Real" := by rfl
example : extractReadmeTitle "#   " = none := by rfl
example :
    readRepositoryMetadata "myorg/widgets" "1700000000\n" [none, none, none, none] =
      .ok { name := "myorg/widgets", updated := 1700000000 } := by rfl
example :
    (readRepositoryMetadata "myorg/widgets" "" [none, none, none, none]).isOk = false := by rfl

/-- A README read outcome that yields no title: a failed read, or content
without a level-one heading. -/
def readHasNoTitle : Option String → Bool
  | none => true
  | some content => (extractReadmeTitle content).isNone

/-!
## Helper lemmas
-/

theorem validateAndBuildPackageId_ok_safe (rawPackageId host namespaceSegment nameSegment : String)
    (p : ParsedPackageId)
    (h : validateAndBuildPackageId rawPackageId host namespaceSegment nameSegment = .ok p) :
    safeSegment p.host = true ∧ safeSegment p.«namespace» = true ∧
      safeSegment p.name = true := by
  unfold validateAndBuildPackageId at h
  split at h
  · cases h
  · split at h
    · cases h
    · dsimp only at h
      split at h
      · cases h
      · cases h
        simp_all [Bool.not_eq_true']

theorem parseStringList_of_not_list (value : Option YamlValue)
    (h : isYamlList value = false) : parseStringList value = [] := by
  unfold parseStringList
  match value with
  | none => rfl
  | some (.str _) => rfl
  | some (.num _) => rfl
  | some (.bool _) => rfl
  | some .null => rfl
  | some (.obj _) => rfl
  | some (.list _) => simp [isYamlList] at h

theorem not_mem_seen_of_mem_uniqueStringsGo (x : String) (vs : List String) :
    ∀ seen, x ∈ uniqueStringsGo seen vs → x ∉ seen := by
  induction vs with
  | nil => intro seen h; simp [uniqueStringsGo] at h
  | cons v vs ih =>
      intro seen h
      unfold uniqueStringsGo at h
      by_cases hc : seen.contains v = true
      · rw [if_pos hc] at h
        exact ih seen h
      · rw [if_neg hc] at h
        rcases List.mem_cons.mp h with h | h
        · subst h
          exact fun hm => hc (List.elem_eq_true_of_mem hm)
        · intro hm
          exact ih (v :: seen) h (List.mem_cons_of_mem v hm)

theorem uniqueStringsGo_nodup (vs : List String) :
    ∀ seen, (uniqueStringsGo seen vs).Nodup := by
  induction vs with
  | nil => intro seen; simp [uniqueStringsGo]
  | cons v vs ih =>
      intro seen
      unfold uniqueStringsGo
      by_cases hc : seen.contains v = true
      · rw [if_pos hc]; exact ih seen
      · rw [if_neg hc]
        refine List.nodup_cons.mpr ⟨?_, ih (v :: seen)⟩
        intro hm
        exact not_mem_seen_of_mem_uniqueStringsGo v vs (v :: seen) hm (List.mem_cons_self v seen)

theorem uniqueStrings_nodup (values : List String) : (uniqueStrings values).Nodup :=
  uniqueStringsGo_nodup values []

theorem tryReadRepositoryName_eq_none (reads : List (Option String))
    (h : reads.all readHasNoTitle = true) : tryReadRepositoryName reads = none := by
  induction reads with
  | nil => rfl
  | cons r rest ih =>
      rw [List.all_cons, Bool.and_eq_true] at h
      cases r with
      | none => exact ih h.2
      | some content =>
          unfold tryReadRepositoryName
          rw [Option.isNone_iff_eq_none.mp h.1]
          exact ih h.2

/-!
## The claims
-/

/-- C1: every identifier that `parsePackageId` accepts has host, namespace
and name within the safe character class `[A-Za-z0-9._-]+` — so a raw
identifier whose extracted host, namespace or name segment holds any other
character (slashes, `..` survives only as a whole safe segment of dots,
shell metacharacters, spaces, null bytes) yields no `ParsedPackageId`; in
particular `../../etc/passwd` and `a/b;rm -rf` fail with a format error. -/
theorem parsePackageId_rejects_unsafe_segments :
    (∀ rawPackageId p, parsePackageId rawPackageId = .ok p →
      safeSegment p.host = true ∧ safeSegment p.«namespace» = true ∧
        safeSegment p.name = true) ∧
    (parsePackageId "../../etc/passwd").isOk = false ∧
    (parsePackageId "a/b;rm -rf").isOk = false := by
  refine ⟨?_, by rfl, by rfl⟩
  intro rawPackageId p h
  unfold parsePackageId at h
  dsimp only at h
  split at h
  · cases h
  · split at h
    · cases h
    · exact validateAndBuildPackageId_ok_safe _ _ _ _ _ h

/-- C2: the short form `myorg/adr-node` and the full URL
`https://github.com/myorg/adr-node.git` normalize to the same host,
namespace, name (trailing `.git` stripped) and clone URL. -/
theorem parsePackageId_form_independent :
    parsePackageId "myorg/adr-node" =
      .ok { raw := "myorg/adr-node", host := "github.com", «namespace» := "myorg",
            name := "adr-node", cloneUrl := "https://github.com/myorg/adr-node.git" } ∧
    parsePackageId "https://github.com/myorg/adr-node.git" =
      .ok { raw := "https://github.com/myorg/adr-node.git", host := "github.com",
            «namespace» := "myorg", name := "adr-node",
            cloneUrl := "https://github.com/myorg/adr-node.git" } :=
  ⟨by rfl, by rfl⟩

/-- C4: when the checked-out tree has no top-level `spex` directory,
`clonePackageToPath` fails (the missing-remote-content error) and the
pre-existing content at the target path is returned unchanged — the removal
of the target only happens after the specification root has been found. -/
theorem clonePackageToPath_missing_spex_leaves_target (checkout : CheckoutTree)
    (targetContent : Option (List FsEntry)) (h : checkout.spexChildren = none) :
    clonePackageToPath (.ok checkout) targetContent =
      (.error "Failed to import package", targetContent) := by
  unfold clonePackageToPath
  dsimp only
  rw [h]

/-- C4 witness: a checkout without a `spex` directory leaves concrete
pre-existing target content alone. -/
theorem clonePackageToPath_missing_spex_witness :
    clonePackageToPath (.ok { spexChildren := none, exportIgnores := [] })
      (some [.file "old.md"]) =
      (.error "Failed to import package", some [.file "old.md"]) :=
  clonePackageToPath_missing_spex_leaves_target
    { spexChildren := none, exportIgnores := [] } (some [.file "old.md"]) rfl

/-- C5: starting from a state without the repository's mirror, two successive
`ensureCachedPackageRepositoryMirror` calls return the same path, perform
exactly one clone (on the first call, which fetches nothing) and one fetch in
total (at most one), and the returned path is a pure function of the host,
namespace and name. -/
theorem ensureCachedPackageRepositoryMirror_idempotent (cacheRoot : String)
    (repository : CachedPackageRepository) (s : CacheState)
    (h : s.mirrors.contains (getCachedPackageRepositoryMirrorPath cacheRoot repository) = false) :
    (ensureCachedPackageRepositoryMirror cacheRoot repository s).1 =
      (ensureCachedPackageRepositoryMirror cacheRoot repository
        (ensureCachedPackageRepositoryMirror cacheRoot repository s).2).1 ∧
    ((ensureCachedPackageRepositoryMirror cacheRoot repository s).2).cloneCount =
      s.cloneCount + 1 ∧
    ((ensureCachedPackageRepositoryMirror cacheRoot repository
        (ensureCachedPackageRepositoryMirror cacheRoot repository s).2).2).cloneCount =
      s.cloneCount + 1 ∧
    ((ensureCachedPackageRepositoryMirror cacheRoot repository s).2).fetchCount =
      s.fetchCount ∧
    ((ensureCachedPackageRepositoryMirror cacheRoot repository
        (ensureCachedPackageRepositoryMirror cacheRoot repository s).2).2).fetchCount =
      s.fetchCount + 1 ∧
    (∀ other : CachedPackageRepository, other.host = repository.host →
      other.«namespace» = repository.«namespace» → other.name = repository.name →
      getCachedPackageRepositoryMirrorPath cacheRoot other =
        (ensureCachedPackageRepositoryMirror cacheRoot repository s).1) := by
  have hm : getCachedPackageRepositoryMirrorPath cacheRoot repository ∉ s.mirrors := by
    simpa using h
  refine ⟨?_, ?_, ?_, ?_, ?_, ?_⟩
  case _ => simp [ensureCachedPackageRepositoryMirror, hm]
  case _ => simp [ensureCachedPackageRepositoryMirror, hm]
  case _ => simp [ensureCachedPackageRepositoryMirror, hm]
  case _ => simp [ensureCachedPackageRepositoryMirror, hm]
  case _ => simp [ensureCachedPackageRepositoryMirror, hm]
  case _ =>
    intro other h1 h2 h3
    have hb : ¬(s.mirrors.contains
        (getCachedPackageRepositoryMirrorPath cacheRoot repository) = true) := by
      simpa using hm
    unfold ensureCachedPackageRepositoryMirror
    rw [if_neg hb]
    unfold getCachedPackageRepositoryMirrorPath
    rw [h1, h2, h3]

/-- C5 witness: the cold-cache double call on a concrete repository. -/
theorem ensureCachedPackageRepositoryMirror_idempotent_witness :
    (ensureCachedPackageRepositoryMirror "/home/user/.cache/spex/packages"
        { host := "github.com", «namespace» := "myorg", name := "widgets",
          cloneUrl := "https://github.com/myorg/widgets.git" }
        { mirrors := [], cloneCount := 0, fetchCount := 0, setUrlCount := 0 }).1 =
      (ensureCachedPackageRepositoryMirror "/home/user/.cache/spex/packages"
        { host := "github.com", «namespace» := "myorg", name := "widgets",
          cloneUrl := "https://github.com/myorg/widgets.git" }
        (ensureCachedPackageRepositoryMirror "/home/user/.cache/spex/packages"
          { host := "github.com", «namespace» := "myorg", name := "widgets",
            cloneUrl := "https://github.com/myorg/widgets.git" }
          { mirrors := [], cloneCount := 0, fetchCount := 0, setUrlCount := 0 }).2).1 ∧
    ((ensureCachedPackageRepositoryMirror "/home/user/.cache/spex/packages"
        { host := "github.com", «namespace» := "myorg", name := "widgets",
          cloneUrl := "https://github.com/myorg/widgets.git" }
        { mirrors := [], cloneCount := 0, fetchCount := 0, setUrlCount := 0 }).2).cloneCount = 1 := by
  have hfull := ensureCachedPackageRepositoryMirror_idempotent
    "/home/user/.cache/spex/packages"
    { host := "github.com", «namespace» := "myorg", name := "widgets",
      cloneUrl := "https://github.com/myorg/widgets.git" }
    { mirrors := [], cloneCount := 0, fetchCount := 0, setUrlCount := 0 } (by rfl)
  exact ⟨hfull.1, hfull.2.1⟩

/-- C6 (the code against the claim): with the ignore pattern `**/*.pyc`, the
copy prunes the whole directory `adr` — whose relative path matches no
pattern as a file path — because the directory filter also accepts a partial
minimatch; the non-matching file `adr/x.md` is therefore excluded although
the claim (and the repository's own export.ignores documentation) promises
that exactly the matching files are excluded.  The directory half of the
claim does hold: `build/**` excludes `build` and its whole subtree. -/
theorem copyPackageSpexDirectory_partial_match_pruning :
    copyPackageSpexDirectory ["**/*.pyc"] [.dir "adr" [.file "x.md"]] = [] ∧
    matchesAnyIgnorePattern "adr/x.md" (compileIgnorePatterns ["**/*.pyc"]) = false ∧
    matchesAnyIgnoreDirectoryPattern "adr" (compileIgnorePatterns ["**/*.pyc"]) = true ∧
    copyPackageSpexDirectory ["build/**"]
      [.dir "build" [.file "out.md"], .dir "adr" [.file "x.md"]] =
      [.dir "adr" [.file "x.md"]] := by
  refine ⟨?_, by rfl, by rfl, ?_⟩ <;>
    simp +decide [copyPackageSpexDirectory, copyEntries]

/-- C7: the available entries are exactly the catalog entries whose id is
not already among the build file's packages, in catalog order (a sublist of
the catalog), and on the spec's example the result is the single entry
`c/d`. -/
theorem availablePackageEntries_set_difference :
    (∀ (catalogPackageEntries : List CatalogDiscoverPackageEntry)
        (importedPackages : List String) (entry : CatalogDiscoverPackageEntry),
      entry ∈ availablePackageEntries catalogPackageEntries importedPackages ↔
        entry ∈ catalogPackageEntries ∧ entry.id ∉ importedPackages) ∧
    (∀ (catalogPackageEntries : List CatalogDiscoverPackageEntry)
        (importedPackages : List String),
      (availablePackageEntries catalogPackageEntries importedPackages).Sublist
        catalogPackageEntries) ∧
    availablePackageEntries
        [{ id := "a/b", name := "a/b" }, { id := "c/d", name := "c/d" }] ["a/b"] =
      [{ id := "c/d", name := "c/d" }] := by
  refine ⟨?_, ?_, by rfl⟩
  · intro catalogPackageEntries importedPackages entry
    simp [availablePackageEntries, List.mem_filter]
  · intro catalogPackageEntries importedPackages
    exact List.filter_sublist _

/-- C8: on a build file read through the deduplicating parser, adding the
same id twice leaves the package list containing the trimmed id exactly
once, and the second call changes nothing (in particular it performs no
write); both calls return the refreshed state. -/
theorem addPackage_idempotent (parsed : YamlValue) (packageId : String)
    (s1 s2 : DiscoverBuildFileState)
    (h1 : addPackage packageId
      { packages := discoverParseBuildFilePackages parsed, writes := 0 } = .ok s1)
    (h2 : addPackage packageId s1 = .ok s2) :
    s2.packages.count (jsTrim packageId) = 1 ∧ s2 = s1 := by
  unfold addPackage at h1 h2
  by_cases he : (jsTrim packageId == "") = true
  · rw [if_pos he] at h1
    cases h1
  · rw [if_neg he] at h1 h2
    by_cases hc : (discoverParseBuildFilePackages parsed).contains (jsTrim packageId) = true
    · rw [if_pos hc] at h1
      cases h1
      rw [if_pos hc] at h2
      cases h2
      refine ⟨?_, rfl⟩
      exact List.count_eq_one_of_mem (uniqueStrings_nodup _)
        (List.mem_of_elem_eq_true hc)
    · rw [if_neg hc] at h1
      cases h1
      have hc2 : (discoverParseBuildFilePackages parsed ++ [jsTrim packageId]).contains
          (jsTrim packageId) = true := by
        exact List.elem_eq_true_of_mem (List.mem_append_right _ (List.mem_singleton_self _))
      rw [if_pos hc2] at h2
      cases h2
      refine ⟨?_, rfl⟩
      rw [List.count_append]
      have hnm : jsTrim packageId ∉ discoverParseBuildFilePackages parsed := by
        intro hm
        exact hc (List.elem_eq_true_of_mem hm)
      rw [List.count_eq_zero.mpr hnm]
      simp

/-- C8 witness: adding `c/d` twice to a build file holding `a/b`. -/
theorem addPackage_idempotent_witness :
    ({ packages := ["a/b", "c/d"], writes := 1 } :
        DiscoverBuildFileState).packages.count (jsTrim "c/d") = 1 ∧
    ({ packages := ["a/b", "c/d"], writes := 1 } : DiscoverBuildFileState) =
      { packages := ["a/b", "c/d"], writes := 1 } :=
  addPackage_idempotent (.obj [("packages", .list [.str "a/b"])]) "c/d"
    { packages := ["a/b", "c/d"], writes := 1 }
    { packages := ["a/b", "c/d"], writes := 1 } (by rfl) (by rfl)

/-- C10: the build-file reader drops non-string and empty or whitespace-only
entries of the packages list silently, a non-list or missing `packages` key
yields the empty package list, and on an empty package list the import loop
finishes with zero imports whatever the importer does. -/
theorem parseBuildFilePackages_lenient :
    parseBuildFilePackages (.obj [("packages",
        .list [.str " a ", .num 3, .str "   ", .bool true, .null, .str "b"])]) =
      ["a", "b"] ∧
    parseBuildFilePackages (.obj [("packages", .str "x")]) = [] ∧
    parseBuildFilePackages (.obj [("name", .str "demo")]) = [] ∧
    (∀ (importOne : String → Except String ImportedSpexPackage) (parsed : YamlValue),
      isYamlList (lookupField (parseBuildFileYaml parsed) "packages") = false →
        buildServiceImportLoop importOne (parseBuildFilePackages parsed) = .ok []) := by
  refine ⟨by rfl, by rfl, by rfl, ?_⟩
  intro importOne parsed h
  unfold parseBuildFilePackages
  rw [parseStringList_of_not_list _ h]
  rfl

end Spex
